import Mathlib

/-!
# Layer rotation of the 3x3x3 cube (`src/App.js`)

A shallow embedding of the cube construction loop, `rotateLayer` and the
`keydown` handler of `src/App.js`, together with the three.js operations
they call (`Vector3.equals`, `Vector3.applyQuaternion`,
`Quaternion.setFromAxisAngle`, `Quaternion.setFromEuler`).

Numbers are the elements of a linearly ordered field `K` and arithmetic is
exact; the definitions are computable at `K = ℚ`.  The functions `Math.sin`,
`Math.cos` and the constant `Math.PI` are the fields of a `JSMath K` value
passed to the code, so that the results on selection, on the children a call
leaves alone and on the key bindings hold for every choice of them.  The
orientation a rotation gives to a cubelet is evaluated with the real sine
and cosine (`realMath`).  The rounding of binary64 arithmetic is not part of
the embedding.
-/

namespace Cube

/-! ## three.js values -/

/-- The `Math` object: `Math.sin`, `Math.cos` and `Math.PI`. -/
structure JSMath (K : Type) where
  sin : K → K
  cos : K → K
  PI : K

/-- A `THREE.Vector3`. -/
structure Vector3 (K : Type) where
  x : K
  y : K
  z : K
  deriving DecidableEq, Repr

/-- A `THREE.Quaternion`. -/
structure Quaternion (K : Type) where
  x : K
  y : K
  z : K
  w : K
  deriving DecidableEq, Repr

/-- A `THREE.Euler` in the default order `XYZ`. -/
structure Euler (K : Type) where
  x : K
  y : K
  z : K
  deriving DecidableEq, Repr

/-- A `THREE.Mesh` as far as `App.js` reads and writes it: the six face
materials (colours), the position and the Euler rotation. -/
structure Mesh (K : Type) where
  materials : List Nat
  position : Vector3 K
  rotation : Euler K
  deriving DecidableEq, Repr

variable {K : Type} [LinearOrderedField K]

/-- `Vector3.equals`: `v.x === this.x && v.y === this.y && v.z === this.z`. -/
def Vector3.equals (a v : Vector3 K) : Bool :=
  decide (v.x = a.x) && decide (v.y = a.y) && decide (v.z = a.z)

/-- `Quaternion.setFromAxisAngle(axis, angle)`: with `s = sin (angle / 2)`
the quaternion `(axis.x * s, axis.y * s, axis.z * s, cos (angle / 2))`. -/
def setFromAxisAngle (M : JSMath K) (axis : Vector3 K) (angle : K) : Quaternion K :=
  let halfAngle := angle / 2
  let s := M.sin halfAngle
  { x := axis.x * s, y := axis.y * s, z := axis.z * s, w := M.cos halfAngle }

/-- `Vector3.applyQuaternion(q)` as three.js computes it:
`v + q.w * t + cross(q.xyz, t)` with `t = 2 * cross(q.xyz, v)`. -/
def Vector3.applyQuaternion (v : Vector3 K) (q : Quaternion K) : Vector3 K :=
  let tx := 2 * (q.y * v.z - q.z * v.y)
  let ty := 2 * (q.z * v.x - q.x * v.z)
  let tz := 2 * (q.x * v.y - q.y * v.x)
  { x := v.x + q.w * tx + q.y * tz - q.z * ty
    y := v.y + q.w * ty + q.z * tx - q.x * tz
    z := v.z + q.w * tz + q.x * ty - q.y * tx }

/-- The body `Vector3.applyQuaternion(q)` had in earlier releases of
three.js: the product `q * v * conj q` written out.  On a quaternion of
length 1 it gives the same vector (`applyQuaternion_eq_product`). -/
def Vector3.applyQuaternionProduct (v : Vector3 K) (q : Quaternion K) : Vector3 K :=
  let ix := q.w * v.x + q.y * v.z - q.z * v.y
  let iy := q.w * v.y + q.z * v.x - q.x * v.z
  let iz := q.w * v.z + q.x * v.y - q.y * v.x
  let iw := -q.x * v.x - q.y * v.y - q.z * v.z
  { x := ix * q.w + iw * -q.x + iy * -q.z - iz * -q.y
    y := iy * q.w + iw * -q.y + iz * -q.x - ix * -q.z
    z := iz * q.w + iw * -q.z + ix * -q.y - iy * -q.x }

/-- `Quaternion.setFromEuler(euler)` for the order `XYZ`; `Object3D` calls it
whenever a component of `rotation` is assigned, so it gives the `quaternion`
of a mesh from its `rotation`. -/
def setFromEuler (M : JSMath K) (e : Euler K) : Quaternion K :=
  let c1 := M.cos (e.x / 2)
  let c2 := M.cos (e.y / 2)
  let c3 := M.cos (e.z / 2)
  let s1 := M.sin (e.x / 2)
  let s2 := M.sin (e.y / 2)
  let s3 := M.sin (e.z / 2)
  { x := s1 * c2 * c3 + c1 * s2 * s3
    y := c1 * s2 * c3 - s1 * c2 * s3
    z := c1 * c2 * s3 + s1 * s2 * c3
    w := c1 * c2 * c3 - s1 * s2 * s3 }

/-- `Vector3.applyEuler(euler)`: `applyQuaternion(setFromEuler(euler))`, the
direction a mesh with rotation `e` gives to the local vector `v`. -/
def Vector3.applyEuler (M : JSMath K) (v : Vector3 K) (e : Euler K) : Vector3 K :=
  v.applyQuaternion (setFromEuler M e)

/-! ## `App.js` -/

/-- `const cubeSize = 1`. -/
def cubeSize : K := 1

/-- `const gap = 0.05`. -/
def gap : K := 0.05

/-- `faceColors`, in the order of the `materials` array of `createCube`:
Right, Left, Up, Down, Front, Back. -/
def faceMaterials : List Nat :=
  [0x00ff00, 0xffa500, 0xffffff, 0xffff00, 0xff0000, 0x0000ff]

/-- `createCube(x, y, z)`: a mesh with the six face materials at position
`(x, y, z)`; a new mesh has the rotation `(0, 0, 0)`. -/
def createCube (x y z : K) : Mesh K :=
  { materials := faceMaterials, position := ⟨x, y, z⟩, rotation := ⟨0, 0, 0⟩ }

/-- The values of each of the three loop counters, in loop order. -/
def loopRange : List Int := [-1, 0, 1]

/-- The construction loop (lines 55-62): `cubeGroup.children` after it. -/
def initialCube : List (Mesh K) :=
  loopRange.flatMap fun (x : Int) =>
    loopRange.flatMap fun (y : Int) =>
      loopRange.map fun (z : Int) =>
        createCube ((cubeSize + gap) * (x : K)) ((cubeSize + gap) * (y : K))
          ((cubeSize + gap) * (z : K))

/-- The body of the `forEach` callback of `rotateLayer` on one child. -/
def rotateChild (layer : K) (axis : Vector3 K) (angle : K) (quaternion : Quaternion K)
    (cube : Mesh K) : Mesh K :=
  let position := cube.position
  if axis.equals ⟨0, 1, 0⟩ && decide (|position.y - layer| < gap) then
    { cube with
      position := cube.position.applyQuaternion quaternion
      rotation := { cube.rotation with y := cube.rotation.y + angle } }
  else if axis.equals ⟨1, 0, 0⟩ && decide (|position.x - layer| < gap) then
    { cube with
      position := cube.position.applyQuaternion quaternion
      rotation := { cube.rotation with x := cube.rotation.x + angle } }
  else if axis.equals ⟨0, 0, 1⟩ && decide (|position.z - layer| < gap) then
    { cube with
      position := cube.position.applyQuaternion quaternion
      rotation := { cube.rotation with z := cube.rotation.z + angle } }
  else cube

/-- `rotateLayer(layer, axis, angle)` as a function of `cubeGroup.children`. -/
def rotateLayer (M : JSMath K) (layer : K) (axis : Vector3 K) (angle : K)
    (children : List (Mesh K)) : List (Mesh K) :=
  let quaternion := setFromAxisAngle M axis angle
  children.map (rotateChild layer axis angle quaternion)

/-- Whether `rotateLayer(layer, axis, angle)` enters one of its three
branches for a child at `position`. -/
def selects (layer : K) (axis : Vector3 K) (position : Vector3 K) : Bool :=
  (axis.equals ⟨0, 1, 0⟩ && decide (|position.y - layer| < gap)) ||
  (axis.equals ⟨1, 0, 0⟩ && decide (|position.x - layer| < gap)) ||
  (axis.equals ⟨0, 0, 1⟩ && decide (|position.z - layer| < gap))

/-- The number of children `rotateLayer(layer, axis, angle)` rotates. -/
def countSelected (layer : K) (axis : Vector3 K) (children : List (Mesh K)) : Nat :=
  (children.filter fun cube => selects layer axis cube.position).length

/-- The `switch` of the `keydown` listener on `event.code`. -/
def keydown (M : JSMath K) (code : String) (children : List (Mesh K)) : List (Mesh K) :=
  if code = "KeyU" then rotateLayer M 1 ⟨0, 1, 0⟩ (M.PI / 2) children
  else if code = "KeyD" then rotateLayer M (-1) ⟨0, 1, 0⟩ (-M.PI / 2) children
  else if code = "KeyL" then rotateLayer M (-1) ⟨1, 0, 0⟩ (M.PI / 2) children
  else if code = "KeyR" then rotateLayer M 1 ⟨1, 0, 0⟩ (-M.PI / 2) children
  else if code = "KeyF" then rotateLayer M (-1) ⟨0, 0, 1⟩ (M.PI / 2) children
  else if code = "KeyB" then rotateLayer M 1 ⟨0, 0, 1⟩ (-M.PI / 2) children
  else children

/-- A `JSMath ℚ` for evaluating the code where no trigonometry is involved. -/
def ratMath : JSMath ℚ := { sin := fun _ => 0, cos := fun _ => 1, PI := 3 }

/-- The three axes `rotateLayer` tests for. -/
def IsBasisAxis (axis : Vector3 K) : Prop :=
  axis = ⟨1, 0, 0⟩ ∨ axis = ⟨0, 1, 0⟩ ∨ axis = ⟨0, 0, 1⟩

/-- The three layer coordinates of a turn command. -/
def IsLayerCoordinate (layer : K) : Prop :=
  layer = -1 ∨ layer = 0 ∨ layer = 1

/-- `Vector3.dot`: for a basis axis, the component of `p` along the axis. -/
def Vector3.dot (p axis : Vector3 K) : K :=
  p.x * axis.x + p.y * axis.y + p.z * axis.z

/-- A coordinate of the construction grid: `-(cubeSize + gap)`, `0` or
`cubeSize + gap`. -/
def OnGridLine (c : K) : Prop :=
  c = -(cubeSize + gap) ∨ c = 0 ∨ c = cubeSize + gap

/-- A point of the construction grid. -/
def OnGrid (p : Vector3 K) : Prop :=
  OnGridLine p.x ∧ OnGridLine p.y ∧ OnGridLine p.z

/-- The error conditions named by the specification. -/
inductive RotateError where
  | InvalidAxis
  | LayerSelectionError
  deriving DecidableEq, Repr

/-- A call `rotateLayer(layer, axis, angle)` with its completion: the body
has no `throw` and no test of a failure condition, so the call completes
normally with the children as `rotateLayer` leaves them. -/
def rotateLayerCall (M : JSMath K) (layer : K) (axis : Vector3 K) (angle : K)
    (children : List (Mesh K)) : Except RotateError (List (Mesh K)) :=
  Except.ok (rotateLayer M layer axis angle children)

/-- The children after the `keydown` listener has handled the key codes
`codes`, first to last. -/
def keydowns (M : JSMath K) (codes : List String) (children : List (Mesh K)) :
    List (Mesh K) :=
  codes.foldl (fun s code => keydown M code s) children

/-- The assignment `cube.rotation.y += angle`, `cube.rotation.x += angle` or
`cube.rotation.z += angle` of the branch of `rotateLayer` for `axis`. -/
def addAngle (axis : Vector3 K) (angle : K) (e : Euler K) : Euler K :=
  if axis.equals ⟨0, 1, 0⟩ then { e with y := e.y + angle }
  else if axis.equals ⟨1, 0, 0⟩ then { e with x := e.x + angle }
  else if axis.equals ⟨0, 0, 1⟩ then { e with z := e.z + angle }
  else e

/-- The child as one of the three branches of `rotateLayer` leaves it: its
position rotated by the quaternion and `angle` added to the component of its
rotation for `axis`. -/
def turned (axis : Vector3 K) (angle : K) (quaternion : Quaternion K) (cube : Mesh K) :
    Mesh K :=
  { cube with
    position := cube.position.applyQuaternion quaternion
    rotation := addAngle axis angle cube.rotation }

/-- The values of the loop counters `(x, y, z)` of the construction loop, in
the order the loop visits them. -/
def gridTriples : List (Int × Int × Int) :=
  loopRange.flatMap fun (x : Int) =>
    loopRange.flatMap fun (y : Int) =>
      loopRange.map fun (z : Int) => (x, y, z)

/-- The `Math` object with the real sine, cosine and `pi`. -/
noncomputable def realMath : JSMath ℝ :=
  { sin := Real.sin, cos := Real.cos, PI := Real.pi }

/-- `Quaternion.multiplyQuaternions(a, b)`. -/
def multiplyQuaternions (a b : Quaternion K) : Quaternion K :=
  { x := a.x * b.w + a.w * b.x + a.y * b.z - a.z * b.y
    y := a.y * b.w + a.w * b.y + a.z * b.x - a.x * b.z
    z := a.z * b.w + a.w * b.z + a.x * b.y - a.y * b.x
    w := a.w * b.w - a.x * b.x - a.y * b.y - a.z * b.z }

/-- `Quaternion.lengthSq()`. -/
def Quaternion.lengthSq (q : Quaternion K) : K :=
  q.x * q.x + q.y * q.y + q.z * q.z + q.w * q.w

/-! ## Basic facts -/

theorem gap_eq : (gap : K) = 1 / 20 := by
  unfold gap; norm_num

theorem gap_pos : (0 : K) < gap := by
  rw [gap_eq]; norm_num

theorem spacing_eq : (cubeSize + gap : K) = 21 / 20 := by
  rw [gap_eq]; unfold cubeSize; norm_num

theorem equals_iff (a v : Vector3 K) : a.equals v = true ↔ a = v := by
  cases a; cases v
  simp only [Vector3.equals, Bool.and_eq_true, decide_eq_true_eq, Vector3.mk.injEq]
  constructor
  · rintro ⟨⟨h1, h2⟩, h3⟩; exact ⟨h1.symm, h2.symm, h3.symm⟩
  · rintro ⟨h1, h2, h3⟩; exact ⟨⟨h1.symm, h2.symm⟩, h3.symm⟩

theorem rotateChild_of_not_selects (layer angle : K) (axis : Vector3 K) (q : Quaternion K)
    (cube : Mesh K) (h : selects layer axis cube.position = false) :
    rotateChild layer axis angle q cube = cube := by
  simp only [selects, Bool.or_eq_false_iff] at h
  obtain ⟨⟨h1, h2⟩, h3⟩ := h
  simp [rotateChild, h1, h2, h3]

theorem selects_of_not_basis (layer : K) (axis p : Vector3 K) (h : ¬ IsBasisAxis axis) :
    selects layer axis p = false := by
  have hx : axis.equals ⟨1, 0, 0⟩ = false := by
    rw [Bool.eq_false_iff]; intro he
    exact h (Or.inl ((equals_iff _ _).1 he))
  have hy : axis.equals ⟨0, 1, 0⟩ = false := by
    rw [Bool.eq_false_iff]; intro he
    exact h (Or.inr (Or.inl ((equals_iff _ _).1 he)))
  have hz : axis.equals ⟨0, 0, 1⟩ = false := by
    rw [Bool.eq_false_iff]; intro he
    exact h (Or.inr (Or.inr ((equals_iff _ _).1 he)))
  simp [selects, hx, hy, hz]

theorem selects_X (layer : K) (p : Vector3 K) :
    selects layer ⟨1, 0, 0⟩ p = decide (|p.x - layer| < gap) := by
  simp [selects, Vector3.equals]

theorem selects_Y (layer : K) (p : Vector3 K) :
    selects layer ⟨0, 1, 0⟩ p = decide (|p.y - layer| < gap) := by
  simp [selects, Vector3.equals]

theorem selects_Z (layer : K) (p : Vector3 K) :
    selects layer ⟨0, 0, 1⟩ p = decide (|p.z - layer| < gap) := by
  simp [selects, Vector3.equals]

theorem selects_eq_dot (layer : K) (axis p : Vector3 K) (h : IsBasisAxis axis) :
    selects layer axis p = decide (|p.dot axis - layer| < gap) := by
  rcases h with h | h | h <;> subst h
  · rw [selects_X]; simp [Vector3.dot]
  · rw [selects_Y]; simp [Vector3.dot]
  · rw [selects_Z]; simp [Vector3.dot]

theorem rotateChild_X (layer angle : K) (q : Quaternion K) (cube : Mesh K) :
    rotateChild layer ⟨1, 0, 0⟩ angle q cube =
      if |cube.position.x - layer| < gap then
        { cube with
          position := cube.position.applyQuaternion q
          rotation := { cube.rotation with x := cube.rotation.x + angle } }
      else cube := by
  simp [rotateChild, Vector3.equals]

theorem rotateChild_Y (layer angle : K) (q : Quaternion K) (cube : Mesh K) :
    rotateChild layer ⟨0, 1, 0⟩ angle q cube =
      if |cube.position.y - layer| < gap then
        { cube with
          position := cube.position.applyQuaternion q
          rotation := { cube.rotation with y := cube.rotation.y + angle } }
      else cube := by
  simp [rotateChild, Vector3.equals]

theorem rotateChild_Z (layer angle : K) (q : Quaternion K) (cube : Mesh K) :
    rotateChild layer ⟨0, 0, 1⟩ angle q cube =
      if |cube.position.z - layer| < gap then
        { cube with
          position := cube.position.applyQuaternion q
          rotation := { cube.rotation with z := cube.rotation.z + angle } }
      else cube := by
  simp [rotateChild, Vector3.equals]

theorem rotateChild_X_pos (layer angle : K) (q : Quaternion K) (cube : Mesh K)
    (h : |cube.position.x - layer| < gap) :
    rotateChild layer ⟨1, 0, 0⟩ angle q cube =
      { cube with
        position := cube.position.applyQuaternion q
        rotation := { cube.rotation with x := cube.rotation.x + angle } } := by
  rw [rotateChild_X, if_pos h]

theorem rotateChild_X_neg (layer angle : K) (q : Quaternion K) (cube : Mesh K)
    (h : ¬ |cube.position.x - layer| < gap) :
    rotateChild layer ⟨1, 0, 0⟩ angle q cube = cube := by
  rw [rotateChild_X, if_neg h]

theorem rotateChild_Y_pos (layer angle : K) (q : Quaternion K) (cube : Mesh K)
    (h : |cube.position.y - layer| < gap) :
    rotateChild layer ⟨0, 1, 0⟩ angle q cube =
      { cube with
        position := cube.position.applyQuaternion q
        rotation := { cube.rotation with y := cube.rotation.y + angle } } := by
  rw [rotateChild_Y, if_pos h]

theorem rotateChild_Y_neg (layer angle : K) (q : Quaternion K) (cube : Mesh K)
    (h : ¬ |cube.position.y - layer| < gap) :
    rotateChild layer ⟨0, 1, 0⟩ angle q cube = cube := by
  rw [rotateChild_Y, if_neg h]

theorem rotateChild_Z_pos (layer angle : K) (q : Quaternion K) (cube : Mesh K)
    (h : |cube.position.z - layer| < gap) :
    rotateChild layer ⟨0, 0, 1⟩ angle q cube =
      { cube with
        position := cube.position.applyQuaternion q
        rotation := { cube.rotation with z := cube.rotation.z + angle } } := by
  rw [rotateChild_Z, if_pos h]

theorem rotateChild_Z_neg (layer angle : K) (q : Quaternion K) (cube : Mesh K)
    (h : ¬ |cube.position.z - layer| < gap) :
    rotateChild layer ⟨0, 0, 1⟩ angle q cube = cube := by
  rw [rotateChild_Z, if_neg h]

theorem rotateLayer_getElem? (M : JSMath K) (layer angle : K) (axis : Vector3 K)
    (children : List (Mesh K)) (i : Nat) :
    (rotateLayer M layer axis angle children)[i]? =
      (children[i]?).map (rotateChild layer axis angle (setFromAxisAngle M axis angle)) := by
  simp [rotateLayer]

theorem rotateLayer_length (M : JSMath K) (layer angle : K) (axis : Vector3 K)
    (children : List (Mesh K)) :
    (rotateLayer M layer axis angle children).length = children.length := by
  simp [rotateLayer]

theorem rotateChild_materials (layer angle : K) (axis : Vector3 K) (q : Quaternion K)
    (cube : Mesh K) : (rotateChild layer axis angle q cube).materials = cube.materials := by
  unfold rotateChild
  dsimp only
  split_ifs <;> rfl

theorem rotateLayer_of_none_selected (M : JSMath K) (layer angle : K) (axis : Vector3 K)
    (children : List (Mesh K))
    (h : ∀ cube ∈ children, selects layer axis cube.position = false) :
    rotateLayer M layer axis angle children = children := by
  unfold rotateLayer
  dsimp only
  conv_rhs => rw [← List.map_id children]
  apply List.map_congr_left
  intro cube hc
  exact rotateChild_of_not_selects _ _ _ _ _ (h cube hc)

/-! ## The construction grid -/

theorem onGridLine_of_mem_loopRange (x : Int) (hx : x ∈ loopRange) :
    OnGridLine ((cubeSize + gap) * (x : K)) := by
  simp only [loopRange, List.mem_cons, List.mem_singleton, List.not_mem_nil, or_false] at hx
  rcases hx with rfl | rfl | rfl
  · left; simp
  · right; left; simp
  · right; right; simp

theorem initialCube_onGrid :
    ∀ cube ∈ (initialCube : List (Mesh K)), OnGrid cube.position := by
  intro cube h
  simp only [initialCube, List.mem_flatMap, List.mem_map] at h
  obtain ⟨x, hx, y, hy, z, hz, rfl⟩ := h
  exact ⟨onGridLine_of_mem_loopRange x hx, onGridLine_of_mem_loopRange y hy,
    onGridLine_of_mem_loopRange z hz⟩

theorem not_near_outer_of_onGridLine (c layer : K) (hc : OnGridLine c)
    (hl : layer = -1 ∨ layer = 1) : ¬ |c - layer| < gap := by
  unfold OnGridLine at hc
  rw [spacing_eq] at hc
  rw [gap_eq, abs_lt]
  rcases hc with rfl | rfl | rfl <;> rcases hl with rfl | rfl <;> norm_num

theorem selects_outer_of_onGrid (layer : K) (axis p : Vector3 K) (hp : OnGrid p)
    (hl : layer = -1 ∨ layer = 1) : selects layer axis p = false := by
  by_cases hb : IsBasisAxis axis
  · obtain ⟨hx, hy, hz⟩ := hp
    rcases hb with h | h | h <;> subst h
    · rw [selects_X]; exact decide_eq_false (not_near_outer_of_onGridLine _ _ hx hl)
    · rw [selects_Y]; exact decide_eq_false (not_near_outer_of_onGridLine _ _ hy hl)
    · rw [selects_Z]; exact decide_eq_false (not_near_outer_of_onGridLine _ _ hz hl)
  · exact selects_of_not_basis _ _ _ hb

theorem rotateLayer_outer_of_onGrid (M : JSMath K) (layer angle : K) (axis : Vector3 K)
    (children : List (Mesh K)) (hg : ∀ cube ∈ children, OnGrid cube.position)
    (hl : layer = -1 ∨ layer = 1) :
    rotateLayer M layer axis angle children = children :=
  rotateLayer_of_none_selected M layer angle axis children
    fun cube hc => selects_outer_of_onGrid layer axis _ (hg cube hc) hl

theorem countSelected_outer_of_onGrid (layer : K) (axis : Vector3 K)
    (children : List (Mesh K)) (hg : ∀ cube ∈ children, OnGrid cube.position)
    (hl : layer = -1 ∨ layer = 1) : countSelected layer axis children = 0 := by
  unfold countSelected
  rw [List.length_eq_zero, List.filter_eq_nil_iff]
  intro cube hc
  simp [selects_outer_of_onGrid layer axis _ (hg cube hc) hl]

theorem keydown_of_onGrid (M : JSMath K) (code : String) (children : List (Mesh K))
    (hg : ∀ cube ∈ children, OnGrid cube.position) : keydown M code children = children := by
  unfold keydown
  split_ifs
  · exact rotateLayer_outer_of_onGrid M _ _ _ _ hg (Or.inr rfl)
  · exact rotateLayer_outer_of_onGrid M _ _ _ _ hg (Or.inl rfl)
  · exact rotateLayer_outer_of_onGrid M _ _ _ _ hg (Or.inl rfl)
  · exact rotateLayer_outer_of_onGrid M _ _ _ _ hg (Or.inr rfl)
  · exact rotateLayer_outer_of_onGrid M _ _ _ _ hg (Or.inl rfl)
  · exact rotateLayer_outer_of_onGrid M _ _ _ _ hg (Or.inr rfl)
  · rfl

theorem keydowns_of_onGrid (M : JSMath K) (codes : List String) (children : List (Mesh K))
    (hg : ∀ cube ∈ children, OnGrid cube.position) : keydowns M codes children = children := by
  unfold keydowns
  induction codes with
  | nil => rfl
  | cons code rest ih =>
    rw [List.foldl_cons, keydown_of_onGrid M code children hg]
    exact ih

/-! ## Claims -/

/-- C10: on the initial cube each of the six key-bound turns (layer `+1` or
`-1`) selects no cubelet, and after any finite sequence of key presses the
27 cubelets have exactly their initial position and rotation. -/
theorem keydown_never_moves (M : JSMath K) :
    countSelected (1 : K) ⟨0, 1, 0⟩ initialCube = 0 ∧
    countSelected (-1 : K) ⟨0, 1, 0⟩ initialCube = 0 ∧
    countSelected (-1 : K) ⟨1, 0, 0⟩ initialCube = 0 ∧
    countSelected (1 : K) ⟨1, 0, 0⟩ initialCube = 0 ∧
    countSelected (-1 : K) ⟨0, 0, 1⟩ initialCube = 0 ∧
    countSelected (1 : K) ⟨0, 0, 1⟩ initialCube = 0 ∧
    ∀ codes : List String, keydowns M codes initialCube = initialCube :=
  ⟨countSelected_outer_of_onGrid _ _ _ initialCube_onGrid (Or.inr rfl),
   countSelected_outer_of_onGrid _ _ _ initialCube_onGrid (Or.inl rfl),
   countSelected_outer_of_onGrid _ _ _ initialCube_onGrid (Or.inl rfl),
   countSelected_outer_of_onGrid _ _ _ initialCube_onGrid (Or.inr rfl),
   countSelected_outer_of_onGrid _ _ _ initialCube_onGrid (Or.inl rfl),
   countSelected_outer_of_onGrid _ _ _ initialCube_onGrid (Or.inr rfl),
   fun codes => keydowns_of_onGrid M codes initialCube initialCube_onGrid⟩

/-- C1 (evaluation at the failing input): the valid call
`rotateLayer(1, (0, 1, 0), angle)` on the initial cube, which the `KeyU`
binding makes to rotate the top layer, selects 0 cubelets instead of 9 and
leaves the cube as it is. -/
theorem top_layer_turn_selects_none (M : JSMath K) (angle : K) :
    IsBasisAxis (⟨0, 1, 0⟩ : Vector3 K) ∧ IsLayerCoordinate (1 : K) ∧
    countSelected (1 : K) ⟨0, 1, 0⟩ initialCube = 0 ∧
    rotateLayer M 1 ⟨0, 1, 0⟩ angle initialCube = initialCube :=
  ⟨Or.inr (Or.inl rfl), Or.inr (Or.inr rfl),
   countSelected_outer_of_onGrid _ _ _ initialCube_onGrid (Or.inr rfl),
   rotateLayer_outer_of_onGrid M _ _ _ _ initialCube_onGrid (Or.inr rfl)⟩

/-- C2: a cubelet that `rotateLayer` does not select (the axis is not a basis
vector, or the component of its position along the axis differs from `layer`
by `gap` or more) is the same after the call: same position, same rotation. -/
theorem unselected_unchanged (M : JSMath K) (layer angle : K) (axis : Vector3 K)
    (children : List (Mesh K)) (i : Nat) (cube : Mesh K)
    (hi : children[i]? = some cube)
    (hns : ¬ IsBasisAxis axis ∨ gap ≤ |cube.position.dot axis - layer|) :
    (rotateLayer M layer axis angle children)[i]? = some cube := by
  rw [rotateLayer_getElem?, hi, Option.map_some']
  congr 1
  apply rotateChild_of_not_selects
  by_cases hb : IsBasisAxis axis
  · rcases hns with h | h
    · exact absurd hb h
    · rw [selects_eq_dot _ _ _ hb]
      exact decide_eq_false (not_lt.2 h)
  · exact selects_of_not_basis _ _ _ hb

/-- C2, at a concrete input: the corner cubelet of the initial cube under the
middle-layer turn about the Y axis. -/
theorem unselected_unchanged_witness :
    ((initialCube : List (Mesh ℚ))[0]? =
      some (createCube (-(21 / 20) : ℚ) (-(21 / 20)) (-(21 / 20)))) ∧
    (¬ IsBasisAxis (⟨0, 1, 0⟩ : Vector3 ℚ) ∨
      gap ≤ |(createCube (-(21 / 20) : ℚ) (-(21 / 20)) (-(21 / 20))).position.dot ⟨0, 1, 0⟩ - 0|) ∧
    (rotateLayer ratMath 0 ⟨0, 1, 0⟩ 1 initialCube)[0]? =
      some (createCube (-(21 / 20) : ℚ) (-(21 / 20)) (-(21 / 20))) := by
  have h1 : (initialCube : List (Mesh ℚ))[0]? =
      some (createCube (-(21 / 20) : ℚ) (-(21 / 20)) (-(21 / 20))) := by
    simp [initialCube, loopRange, spacing_eq]
  have h2 : ¬ IsBasisAxis (⟨0, 1, 0⟩ : Vector3 ℚ) ∨
      gap ≤ |(createCube (-(21 / 20) : ℚ) (-(21 / 20)) (-(21 / 20))).position.dot ⟨0, 1, 0⟩ - 0| := by
    right
    rw [gap_eq]
    norm_num [createCube, Vector3.dot, abs_of_nonneg]
  exact ⟨h1, h2, unselected_unchanged ratMath 0 1 ⟨0, 1, 0⟩ initialCube 0 _ h1 h2⟩

/-- C6, as stated, fails: for the axis `(1, 1, 0)`, which is not a basis
vector, the call does not fail with `InvalidAxis`; it completes normally and
leaves the initial cube as it is. -/
theorem invalid_axis_completes_normally :
    ¬ IsBasisAxis (⟨1, 1, 0⟩ : Vector3 ℚ) ∧
    rotateLayerCall ratMath 0 ⟨1, 1, 0⟩ 1 initialCube ≠ Except.error RotateError.InvalidAxis ∧
    rotateLayerCall ratMath 0 ⟨1, 1, 0⟩ 1 initialCube = Except.ok initialCube := by
  have hb : ¬ IsBasisAxis (⟨1, 1, 0⟩ : Vector3 ℚ) := by
    simp [IsBasisAxis]
  have hok : rotateLayerCall ratMath 0 ⟨1, 1, 0⟩ 1 initialCube = Except.ok initialCube := by
    unfold rotateLayerCall
    rw [rotateLayer_of_none_selected]
    intro cube _
    exact selects_of_not_basis _ _ _ hb
  refine ⟨hb, ?_, hok⟩
  rw [hok]
  exact fun h => Except.noConfusion h

/-- C6, amended: for every axis that is not exactly one of `(1, 0, 0)`,
`(0, 1, 0)`, `(0, 0, 1)` the call completes normally and leaves every cubelet
as it is. -/
theorem invalid_axis_is_noop (M : JSMath K) (layer angle : K) (axis : Vector3 K)
    (children : List (Mesh K)) (hb : ¬ IsBasisAxis axis) :
    rotateLayerCall M layer axis angle children = Except.ok children := by
  unfold rotateLayerCall
  rw [rotateLayer_of_none_selected]
  intro cube _
  exact selects_of_not_basis _ _ _ hb

/-- C6 amended, at a concrete input: the axis `(0, 0, 2)` on the initial
cube. -/
theorem invalid_axis_is_noop_witness :
    ¬ IsBasisAxis (⟨0, 0, 2⟩ : Vector3 ℚ) ∧
    rotateLayerCall ratMath 0 ⟨0, 0, 2⟩ 1 initialCube = Except.ok initialCube :=
  ⟨by simp [IsBasisAxis],
   invalid_axis_is_noop ratMath 0 1 ⟨0, 0, 2⟩ initialCube (by simp [IsBasisAxis])⟩

theorem loopRange_cast_injective (x y : Int) (h : ((cubeSize + gap) * (x : K)) =
    (cubeSize + gap) * (y : K)) : x = y := by
  rw [spacing_eq] at h
  have h2 : (x : K) = (y : K) := by
    have h0 : (21 / 20 : K) ≠ 0 := by norm_num
    exact mul_left_cancel₀ h0 h
  exact_mod_cast h2

theorem initialCube_positions :
    (initialCube : List (Mesh K)).map (fun cube => cube.position) =
      (loopRange.flatMap fun (x : Int) => loopRange.flatMap fun (y : Int) =>
        loopRange.map fun (z : Int) => ((x, y, z) : Int × Int × Int)).map
        (fun t => (⟨(cubeSize + gap) * (t.1 : K), (cubeSize + gap) * (t.2.1 : K),
          (cubeSize + gap) * (t.2.2 : K)⟩ : Vector3 K)) := by
  simp [initialCube, loopRange, createCube]

theorem initialCube_positions_nodup :
    ((initialCube : List (Mesh K)).map (fun cube => cube.position)).Nodup := by
  rw [initialCube_positions]
  apply List.Nodup.map
  · rintro ⟨x1, y1, z1⟩ ⟨x2, y2, z2⟩ h
    simp only [Vector3.mk.injEq] at h
    obtain ⟨hx, hy, hz⟩ := h
    rw [loopRange_cast_injective x1 x2 hx, loopRange_cast_injective y1 y2 hy,
      loopRange_cast_injective z1 z2 hz]
  · decide

/-- C8: the cube is created with exactly 27 cubelets, one at
`(cubeSize + gap) * (x, y, z)` for each `(x, y, z)` with coordinates in
`-1, 0, 1`, at pairwise distinct positions; every `rotateLayer` call, for any
arguments, keeps the number of cubelets and their order: the cubelet at each
index is the one that was there, with its materials, changed (if at all)
only in position and rotation. -/
theorem cubelet_collection_invariant :
    (initialCube : List (Mesh K)).length = 27 ∧
    ((initialCube : List (Mesh K)).map (fun cube => cube.position)).Nodup ∧
    (∀ p : Vector3 K, p ∈ (initialCube : List (Mesh K)).map (fun cube => cube.position) ↔
      ∃ x ∈ loopRange, ∃ y ∈ loopRange, ∃ z ∈ loopRange,
        p = ⟨(cubeSize + gap) * (x : K), (cubeSize + gap) * (y : K),
          (cubeSize + gap) * (z : K)⟩) ∧
    ∀ (M : JSMath K) (layer : K) (axis : Vector3 K) (angle : K) (children : List (Mesh K)),
      (rotateLayer M layer axis angle children).length = children.length ∧
      (rotateLayer M layer axis angle children).map (fun cube => cube.materials) =
        children.map (fun cube => cube.materials) ∧
      ∀ i : Nat, (rotateLayer M layer axis angle children)[i]? =
        (children[i]?).map (rotateChild layer axis angle (setFromAxisAngle M axis angle)) := by
  refine ⟨by simp [initialCube, loopRange], initialCube_positions_nodup, ?_, ?_⟩
  · intro p
    simp only [initialCube, List.map_flatMap, List.map_map, List.mem_flatMap, List.mem_map,
      Function.comp, createCube]
    constructor
    · rintro ⟨x, hx, y, hy, z, hz, rfl⟩
      exact ⟨x, hx, y, hy, z, hz, rfl⟩
    · rintro ⟨x, hx, y, hy, z, hz, rfl⟩
      exact ⟨x, hx, y, hy, z, hz, rfl⟩
  · intro M layer axis angle children
    refine ⟨rotateLayer_length M layer angle axis children, ?_,
      fun i => rotateLayer_getElem? M layer angle axis children i⟩
    simp only [rotateLayer, List.map_map]
    apply List.map_congr_left
    intro cube _
    exact rotateChild_materials _ _ _ _ _

/-- C9: `gap` is strictly less than the separation `1` of adjacent layer
coordinates, and for every position and basis axis at most one layer
coordinate among `-1, 0, 1` passes the selection test. -/
theorem layer_unique (axis p : Vector3 K) (l1 l2 : K) (hb : IsBasisAxis axis)
    (h1 : IsLayerCoordinate l1) (h2 : IsLayerCoordinate l2)
    (s1 : selects l1 axis p = true) (s2 : selects l2 axis p = true) :
    (gap : K) < 1 ∧ l1 = l2 := by
  refine ⟨by rw [gap_eq]; norm_num, ?_⟩
  rw [selects_eq_dot _ _ _ hb, decide_eq_true_eq, gap_eq, abs_lt] at s1 s2
  rcases h1 with rfl | rfl | rfl <;> rcases h2 with rfl | rfl | rfl <;>
    first
      | rfl
      | (exfalso; linarith [s1.1, s1.2, s2.1, s2.2])

/-- C9, at a concrete input: the centre of the cube and the layers `0`, `0`
about the X axis. -/
theorem layer_unique_witness :
    IsBasisAxis (⟨1, 0, 0⟩ : Vector3 ℚ) ∧ IsLayerCoordinate (0 : ℚ) ∧
    selects (0 : ℚ) ⟨1, 0, 0⟩ ⟨0, 0, 0⟩ = true ∧ ((gap : ℚ) < 1 ∧ (0 : ℚ) = 0) := by
  have hs : selects (0 : ℚ) ⟨1, 0, 0⟩ ⟨0, 0, 0⟩ = true := by
    rw [selects_X, decide_eq_true_eq, gap_eq]; norm_num
  exact ⟨Or.inl rfl, Or.inr (Or.inl rfl), hs,
    layer_unique ⟨1, 0, 0⟩ ⟨0, 0, 0⟩ 0 0 (Or.inl rfl) (Or.inr (Or.inl rfl))
      (Or.inr (Or.inl rfl)) hs hs⟩

theorem applyQuaternion_axisX_x (M : JSMath K) (angle : K) (v : Vector3 K) :
    (v.applyQuaternion (setFromAxisAngle M ⟨1, 0, 0⟩ angle)).x = v.x := by
  simp [Vector3.applyQuaternion, setFromAxisAngle]

theorem applyQuaternion_axisY_y (M : JSMath K) (angle : K) (v : Vector3 K) :
    (v.applyQuaternion (setFromAxisAngle M ⟨0, 1, 0⟩ angle)).y = v.y := by
  simp [Vector3.applyQuaternion, setFromAxisAngle]

theorem applyQuaternion_axisZ_z (M : JSMath K) (angle : K) (v : Vector3 K) :
    (v.applyQuaternion (setFromAxisAngle M ⟨0, 0, 1⟩ angle)).z = v.z := by
  simp [Vector3.applyQuaternion, setFromAxisAngle]

theorem not_near_both_outer (c : K) : ¬ (|c - 1| < gap ∧ |c - (-1)| < gap) := by
  rw [gap_eq, abs_lt, abs_lt]
  rintro ⟨⟨h1, _⟩, ⟨_, h4⟩⟩
  linarith

/-- C5: for every cube state and every two angles `a` and `b`, the turns
`rotateLayer(+1, X, a)` and `rotateLayer(-1, X, b)` give the same state in
either order; no cubelet is selected by both, and a turn about X does not
change which cubelets a turn about X selects. -/
theorem opposite_layers_commute (M : JSMath K) (a b : K) (children : List (Mesh K)) :
    (∀ p : Vector3 K,
      ¬ (selects (1 : K) ⟨1, 0, 0⟩ p = true ∧ selects (-1 : K) ⟨1, 0, 0⟩ p = true)) ∧
    (∀ (p : Vector3 K) (layer angle : K),
      selects layer ⟨1, 0, 0⟩ (p.applyQuaternion (setFromAxisAngle M ⟨1, 0, 0⟩ angle)) =
        selects layer ⟨1, 0, 0⟩ p) ∧
    rotateLayer M (-1) ⟨1, 0, 0⟩ b (rotateLayer M 1 ⟨1, 0, 0⟩ a children) =
      rotateLayer M 1 ⟨1, 0, 0⟩ a (rotateLayer M (-1) ⟨1, 0, 0⟩ b children) := by
  refine ⟨?_, ?_, ?_⟩
  · intro p
    rw [selects_X, selects_X, decide_eq_true_eq, decide_eq_true_eq]
    exact not_near_both_outer p.x
  · intro p layer angle
    rw [selects_X, selects_X, applyQuaternion_axisX_x]
  · simp only [rotateLayer, List.map_map]
    apply List.map_congr_left
    intro cube _
    simp only [Function.comp]
    by_cases h1 : |cube.position.x - 1| < gap
    · have h2 : ¬ |cube.position.x - (-1)| < gap := fun h => not_near_both_outer _ ⟨h1, h⟩
      rw [rotateChild_X_neg _ _ _ cube h2, rotateChild_X_pos _ _ _ cube h1,
        rotateChild_X_neg]
      show ¬ |(cube.position.applyQuaternion _).x - (-1)| < gap
      rw [applyQuaternion_axisX_x]
      exact h2
    · by_cases h2 : |cube.position.x - (-1)| < gap
      · rw [rotateChild_X_neg _ _ _ cube h1, rotateChild_X_pos _ _ _ cube h2,
          rotateChild_X_neg]
        show ¬ |(cube.position.applyQuaternion _).x - 1| < gap
        rw [applyQuaternion_axisX_x]
        exact h1
      · rw [rotateChild_X_neg _ _ _ cube h1, rotateChild_X_neg _ _ _ cube h2,
          rotateChild_X_neg _ _ _ cube h1]

/-! ## Quarter turns with the real sine and cosine -/

theorem realMath_sin_quarter :
    realMath.sin (realMath.PI / 2 / 2) = realMath.cos (realMath.PI / 2 / 2) := by
  have h4 : Real.pi / 2 / 2 = Real.pi / 4 := by ring
  show Real.sin (Real.pi / 2 / 2) = Real.cos (Real.pi / 2 / 2)
  rw [h4, Real.sin_pi_div_four, Real.cos_pi_div_four]

theorem realMath_cos_quarter :
    2 * (realMath.cos (realMath.PI / 2 / 2) * realMath.cos (realMath.PI / 2 / 2)) = 1 := by
  have h4 : Real.pi / 2 / 2 = Real.pi / 4 := by ring
  have h2 : Real.sqrt 2 * Real.sqrt 2 = 2 := Real.mul_self_sqrt (by norm_num)
  show 2 * (Real.cos (Real.pi / 2 / 2) * Real.cos (Real.pi / 2 / 2)) = 1
  rw [h4, Real.cos_pi_div_four]
  linear_combination (1 / 2 : ℝ) * h2

theorem applyQuaternion_quarter_Y (M : JSMath K) (angle e : K) (v : Vector3 K)
    (he : e = 1 ∨ e = -1) (hs : M.sin (angle / 2) = e * M.cos (angle / 2))
    (hc : 2 * (M.cos (angle / 2) * M.cos (angle / 2)) = 1) :
    v.applyQuaternion (setFromAxisAngle M ⟨0, 1, 0⟩ angle) = ⟨e * v.z, v.y, -(e * v.x)⟩ := by
  simp only [Vector3.applyQuaternion, setFromAxisAngle, hs, Vector3.mk.injEq]
  rcases he with rfl | rfl
  · refine ⟨?_, by ring, ?_⟩
    · linear_combination (v.z - v.x) * hc
    · linear_combination (-v.x - v.z) * hc
  · refine ⟨?_, by ring, ?_⟩
    · linear_combination (-v.x - v.z) * hc
    · linear_combination (v.x - v.z) * hc

/-! ## Selected children -/

theorem addAngle_X (angle : K) (e : Euler K) :
    addAngle ⟨1, 0, 0⟩ angle e = { e with x := e.x + angle } := by
  simp [addAngle, Vector3.equals]

theorem addAngle_Y (angle : K) (e : Euler K) :
    addAngle ⟨0, 1, 0⟩ angle e = { e with y := e.y + angle } := by
  simp [addAngle, Vector3.equals]

theorem addAngle_Z (angle : K) (e : Euler K) :
    addAngle ⟨0, 0, 1⟩ angle e = { e with z := e.z + angle } := by
  simp [addAngle, Vector3.equals]

theorem isBasisAxis_of_selects (layer : K) (axis p : Vector3 K)
    (h : selects layer axis p = true) : IsBasisAxis axis := by
  by_contra hb
  rw [selects_of_not_basis layer axis p hb] at h
  exact Bool.false_ne_true h

theorem rotateChild_of_selects (layer angle : K) (axis : Vector3 K) (q : Quaternion K)
    (cube : Mesh K) (h : selects layer axis cube.position = true) :
    rotateChild layer axis angle q cube = turned axis angle q cube := by
  unfold turned
  rcases isBasisAxis_of_selects _ _ _ h with hb | hb | hb <;> subst hb
  · rw [selects_X, decide_eq_true_eq] at h
    rw [rotateChild_X_pos _ _ _ _ h, addAngle_X]
  · rw [selects_Y, decide_eq_true_eq] at h
    rw [rotateChild_Y_pos _ _ _ _ h, addAngle_Y]
  · rw [selects_Z, decide_eq_true_eq] at h
    rw [rotateChild_Z_pos _ _ _ _ h, addAngle_Z]

theorem selects_applyQuaternion (M : JSMath K) (layer angle : K) (axis p : Vector3 K) :
    selects layer axis (p.applyQuaternion (setFromAxisAngle M axis angle)) =
      selects layer axis p := by
  by_cases hb : IsBasisAxis axis
  · rcases hb with hb | hb | hb <;> subst hb
    · rw [selects_X, selects_X, applyQuaternion_axisX_x]
    · rw [selects_Y, selects_Y, applyQuaternion_axisY_y]
    · rw [selects_Z, selects_Z, applyQuaternion_axisZ_z]
  · rw [selects_of_not_basis _ _ _ hb, selects_of_not_basis _ _ _ hb]

theorem initialCube_centre :
    (initialCube : List (Mesh K))[13]? = some (createCube 0 0 0) := by
  simp [initialCube, loopRange]

theorem selects_centre (axis : Vector3 K) (hb : IsBasisAxis axis) :
    selects (0 : K) axis ⟨0, 0, 0⟩ = true := by
  rw [selects_eq_dot _ _ _ hb, decide_eq_true_eq]
  simp [Vector3.dot, gap_pos]

theorem applyQuaternion_origin (q : Quaternion K) :
    (⟨0, 0, 0⟩ : Vector3 K).applyQuaternion q = ⟨0, 0, 0⟩ := by
  simp [Vector3.applyQuaternion]

/-! ## Orientation -/

theorem applyEuler_quarter_X (M : JSMath K) (c : K) (hsin : M.sin (M.PI / 2 / 2) = c)
    (hcos : M.cos (M.PI / 2 / 2) = c) (h0s : M.sin (0 / 2) = 0) (h0c : M.cos (0 / 2) = 1) :
    (⟨1, 0, 0⟩ : Vector3 K).applyEuler M ⟨M.PI / 2, 0, 0⟩ = ⟨1, 0, 0⟩ := by
  simp only [Vector3.applyEuler, setFromEuler, Vector3.applyQuaternion, hsin, hcos, h0s, h0c,
    Vector3.mk.injEq]
  refine ⟨by ring, by ring, by ring⟩

theorem applyEuler_quarter_X_quarter_Y (M : JSMath K) (c : K)
    (hsin : M.sin (M.PI / 2 / 2) = c) (hcos : M.cos (M.PI / 2 / 2) = c)
    (hc : 2 * (c * c) = 1) (h0s : M.sin (0 / 2) = 0) (h0c : M.cos (0 / 2) = 1) :
    (⟨1, 0, 0⟩ : Vector3 K).applyEuler M ⟨M.PI / 2, M.PI / 2, 0⟩ = ⟨0, 1, 0⟩ := by
  simp only [Vector3.applyEuler, setFromEuler, Vector3.applyQuaternion, hsin, hcos, h0s, h0c,
    Vector3.mk.injEq]
  refine ⟨?_, ?_, by ring⟩
  · linear_combination (-(2 * (c * c) + 1)) * hc
  · linear_combination (2 * (c * c) + 1) * hc

/-- C3 (evaluation at the failing input): on the initial cube, after
`rotateLayer(0, (1, 0, 0), pi / 2)` the centre cubelet has the rotation
`(pi / 2, 0, 0)`; the call `rotateLayer(0, (0, 1, 0), pi / 2)` selects it and
leaves it with the rotation `(pi / 2, pi / 2, 0)`, which turns the local
vector `(1, 0, 0)` to `(0, 1, 0)`, whereas the rotation by `pi / 2` about Y
composed on the left with the orientation before the call turns it to
`(0, 0, -1)`. -/
theorem orientation_not_composed :
    ∃ c1 c2 : Mesh ℝ,
      (rotateLayer realMath 0 ⟨1, 0, 0⟩ (realMath.PI / 2) initialCube)[13]? = some c1 ∧
      (rotateLayer realMath 0 ⟨0, 1, 0⟩ (realMath.PI / 2)
        (rotateLayer realMath 0 ⟨1, 0, 0⟩ (realMath.PI / 2) initialCube))[13]? = some c2 ∧
      selects (0 : ℝ) ⟨0, 1, 0⟩ c1.position = true ∧
      c1.rotation = ⟨Real.pi / 2, 0, 0⟩ ∧
      c2.rotation = ⟨Real.pi / 2, Real.pi / 2, 0⟩ ∧
      (⟨1, 0, 0⟩ : Vector3 ℝ).applyEuler realMath c2.rotation = ⟨0, 1, 0⟩ ∧
      ((⟨1, 0, 0⟩ : Vector3 ℝ).applyEuler realMath c1.rotation).applyQuaternion
        (setFromAxisAngle realMath ⟨0, 1, 0⟩ (realMath.PI / 2)) = ⟨0, 0, -1⟩ := by
  have h0s : realMath.sin (0 / 2) = 0 := by
    show Real.sin (0 / 2) = 0
    rw [zero_div, Real.sin_zero]
  have h0c : realMath.cos (0 / 2) = 1 := by
    show Real.cos (0 / 2) = 1
    rw [zero_div, Real.cos_zero]
  have hX : selects (0 : ℝ) ⟨1, 0, 0⟩ (createCube (0 : ℝ) 0 0).position = true :=
    selects_centre _ (Or.inl rfl)
  have e1 : rotateChild (0 : ℝ) ⟨1, 0, 0⟩ (realMath.PI / 2)
      (setFromAxisAngle realMath ⟨1, 0, 0⟩ (realMath.PI / 2)) (createCube 0 0 0) =
      { materials := faceMaterials, position := ⟨0, 0, 0⟩,
        rotation := ⟨Real.pi / 2, 0, 0⟩ } := by
    rw [rotateChild_of_selects _ _ _ _ _ hX]
    simp [turned, addAngle_X, createCube, applyQuaternion_origin, realMath]
  have hY : selects (0 : ℝ) ⟨0, 1, 0⟩
      ({ materials := faceMaterials, position := ⟨0, 0, 0⟩,
         rotation := ⟨Real.pi / 2, 0, 0⟩ } : Mesh ℝ).position = true :=
    selects_centre _ (Or.inr (Or.inl rfl))
  have e2 : rotateChild (0 : ℝ) ⟨0, 1, 0⟩ (realMath.PI / 2)
      (setFromAxisAngle realMath ⟨0, 1, 0⟩ (realMath.PI / 2))
      { materials := faceMaterials, position := ⟨0, 0, 0⟩,
        rotation := ⟨Real.pi / 2, 0, 0⟩ } =
      { materials := faceMaterials, position := ⟨0, 0, 0⟩,
        rotation := ⟨Real.pi / 2, Real.pi / 2, 0⟩ } := by
    rw [rotateChild_of_selects _ _ _ _ _ hY]
    simp [turned, addAngle_Y, applyQuaternion_origin, realMath]
  refine ⟨{ materials := faceMaterials, position := ⟨0, 0, 0⟩,
              rotation := ⟨Real.pi / 2, 0, 0⟩ },
    { materials := faceMaterials, position := ⟨0, 0, 0⟩,
      rotation := ⟨Real.pi / 2, Real.pi / 2, 0⟩ }, ?_, ?_, hY, rfl, rfl, ?_, ?_⟩
  · rw [rotateLayer_getElem?, initialCube_centre, Option.map_some', e1]
  · rw [rotateLayer_getElem?, rotateLayer_getElem?, initialCube_centre, Option.map_some',
      Option.map_some', e1, e2]
  · exact applyEuler_quarter_X_quarter_Y realMath _ realMath_sin_quarter rfl
      realMath_cos_quarter h0s h0c
  · show ((⟨1, 0, 0⟩ : Vector3 ℝ).applyEuler realMath ⟨realMath.PI / 2, 0, 0⟩).applyQuaternion
      (setFromAxisAngle realMath ⟨0, 1, 0⟩ (realMath.PI / 2)) = ⟨0, 0, -1⟩
    rw [applyEuler_quarter_X realMath _ realMath_sin_quarter rfl h0s h0c,
      applyQuaternion_quarter_Y realMath _ 1 _ (Or.inl rfl)
        (by rw [realMath_sin_quarter, one_mul]) realMath_cos_quarter]
    simp

/-! ## The branch for the X axis composes the orientation -/

theorem applyQuaternion_eq_product (v : Vector3 K) (q : Quaternion K)
    (h : q.lengthSq = 1) : v.applyQuaternion q = v.applyQuaternionProduct q := by
  unfold Quaternion.lengthSq at h
  simp only [Vector3.applyQuaternion, Vector3.applyQuaternionProduct, Vector3.mk.injEq]
  refine ⟨?_, ?_, ?_⟩
  · linear_combination (-v.x) * h
  · linear_combination (-v.y) * h
  · linear_combination (-v.z) * h

theorem applyQuaternionProduct_mul (v : Vector3 K) (a b : Quaternion K) :
    (v.applyQuaternionProduct b).applyQuaternionProduct a =
      v.applyQuaternionProduct (multiplyQuaternions a b) := by
  simp only [Vector3.applyQuaternionProduct, multiplyQuaternions, Vector3.mk.injEq]
  refine ⟨by ring, by ring, by ring⟩

theorem lengthSq_setFromAxisAngle_real (axis : Vector3 ℝ) (hb : IsBasisAxis axis) (a : ℝ) :
    (setFromAxisAngle realMath axis a).lengthSq = 1 := by
  have h := Real.sin_sq_add_cos_sq (a / 2)
  rcases hb with hb | hb | hb <;> subst hb <;>
    simp only [Quaternion.lengthSq, setFromAxisAngle, realMath] <;>
    linear_combination h

theorem lengthSq_setFromEuler_real (e : Euler ℝ) : (setFromEuler realMath e).lengthSq = 1 := by
  have h1 := Real.sin_sq_add_cos_sq (e.x / 2)
  have h2 := Real.sin_sq_add_cos_sq (e.y / 2)
  have h3 := Real.sin_sq_add_cos_sq (e.z / 2)
  simp only [Quaternion.lengthSq, setFromEuler, realMath]
  linear_combination
    ((Real.sin (e.y / 2) ^ 2 + Real.cos (e.y / 2) ^ 2) *
      (Real.sin (e.z / 2) ^ 2 + Real.cos (e.z / 2) ^ 2)) * h1 +
    (Real.sin (e.z / 2) ^ 2 + Real.cos (e.z / 2) ^ 2) * h2 + h3

theorem setFromEuler_addAngle_X_real (e : Euler ℝ) (a : ℝ) :
    setFromEuler realMath (addAngle ⟨1, 0, 0⟩ a e) =
      multiplyQuaternions (setFromAxisAngle realMath ⟨1, 0, 0⟩ a) (setFromEuler realMath e) := by
  have hh : (e.x + a) / 2 = e.x / 2 + a / 2 := by ring
  simp only [addAngle_X, setFromEuler, setFromAxisAngle, multiplyQuaternions, realMath, hh,
    Real.sin_add, Real.cos_add, Quaternion.mk.injEq]
  refine ⟨by ring, by ring, by ring, by ring⟩

/-- The branch of `rotateLayer` for the X axis composes the orientation with
the rotation applied to the position: for every earlier rotation `e`, the
rotation with `angle` added to its `x` turns each local vector to where the
quaternion of the turn takes the direction `e` gave it. -/
theorem applyEuler_addAngle_X_real (e : Euler ℝ) (a : ℝ) (v : Vector3 ℝ) :
    v.applyEuler realMath (addAngle ⟨1, 0, 0⟩ a e) =
      (v.applyEuler realMath e).applyQuaternion (setFromAxisAngle realMath ⟨1, 0, 0⟩ a) := by
  unfold Vector3.applyEuler
  rw [applyQuaternion_eq_product v _ (lengthSq_setFromEuler_real _),
    applyQuaternion_eq_product v _ (lengthSq_setFromEuler_real e),
    applyQuaternion_eq_product _ _ (lengthSq_setFromAxisAngle_real _ (Or.inl rfl) a),
    applyQuaternionProduct_mul, setFromEuler_addAngle_X_real]

/-! ## The middle layers of the initial cube -/

theorem initialCube_eq_map :
    (initialCube : List (Mesh K)) =
      gridTriples.map fun t =>
        createCube ((cubeSize + gap) * (t.1 : K)) ((cubeSize + gap) * (t.2.1 : K))
          ((cubeSize + gap) * (t.2.2 : K)) := by
  simp [initialCube, gridTriples, loopRange]

theorem near_zero_iff (x : Int) (hx : x ∈ loopRange) :
    |(cubeSize + gap) * (x : K) - 0| < gap ↔ x = 0 := by
  simp only [loopRange, List.mem_cons, List.mem_singleton, List.not_mem_nil, or_false] at hx
  rw [spacing_eq, gap_eq, abs_lt]
  rcases hx with rfl | rfl | rfl <;> norm_num

theorem gridTriples_mem (t : Int × Int × Int) (ht : t ∈ gridTriples) :
    t.1 ∈ loopRange ∧ t.2.1 ∈ loopRange ∧ t.2.2 ∈ loopRange := by
  simp only [gridTriples, List.mem_flatMap, List.mem_map] at ht
  obtain ⟨x, hx, y, hy, z, hz, rfl⟩ := ht
  exact ⟨hx, hy, hz⟩

theorem countSelected_middle_initial (axis : Vector3 K) (hb : IsBasisAxis axis) :
    countSelected (0 : K) axis initialCube = 9 := by
  unfold countSelected
  rw [initialCube_eq_map, List.filter_map, List.length_map]
  rcases hb with hb | hb | hb <;> subst hb
  · have h : ∀ t ∈ gridTriples,
        ((fun cube : Mesh K => selects 0 ⟨1, 0, 0⟩ cube.position) ∘ fun t : Int × Int × Int =>
          createCube ((cubeSize + gap) * (t.1 : K)) ((cubeSize + gap) * (t.2.1 : K))
            ((cubeSize + gap) * (t.2.2 : K))) t = decide (t.1 = 0) := by
      intro t ht
      simp only [Function.comp, selects_X, createCube,
        near_zero_iff t.1 (gridTriples_mem t ht).1]
    rw [List.filter_congr h]
    decide
  · have h : ∀ t ∈ gridTriples,
        ((fun cube : Mesh K => selects 0 ⟨0, 1, 0⟩ cube.position) ∘ fun t : Int × Int × Int =>
          createCube ((cubeSize + gap) * (t.1 : K)) ((cubeSize + gap) * (t.2.1 : K))
            ((cubeSize + gap) * (t.2.2 : K))) t = decide (t.2.1 = 0) := by
      intro t ht
      simp only [Function.comp, selects_Y, createCube,
        near_zero_iff t.2.1 (gridTriples_mem t ht).2.1]
    rw [List.filter_congr h]
    decide
  · have h : ∀ t ∈ gridTriples,
        ((fun cube : Mesh K => selects 0 ⟨0, 0, 1⟩ cube.position) ∘ fun t : Int × Int × Int =>
          createCube ((cubeSize + gap) * (t.1 : K)) ((cubeSize + gap) * (t.2.1 : K))
            ((cubeSize + gap) * (t.2.2 : K))) t = decide (t.2.2 = 0) := by
      intro t ht
      simp only [Function.comp, selects_Z, createCube,
        near_zero_iff t.2.2 (gridTriples_mem t ht).2.2]
    rw [List.filter_congr h]
    decide

end Cube
